import Mathlib

set_option maxRecDepth 100000

/-! Shallow embedding of the delete-unused-repo pipeline (src/main.rs):
the predicate filter stage, the candidate mapping, the selection and
double-confirmation gate, the pagination collector and the concurrent
deletion executor, each translated from the source. -/

/-- Repository record as read by main.rs (the octocrab Repository fields
the program uses). Attributes the remote API may omit are Option. -/
structure Repository where
  owner : Option String
  visibility : Option String
  fork : Option Bool
  stargazers_count : Option Nat
  full_name : Option String
  name : String
deriving DecidableEq

/-- Command-line arguments (struct Cli, main.rs lines 13-31). -/
structure Cli where
  token : String
  fork : Bool
  visibility : List String
  owner : Option (List String)
  star : Nat
deriving DecidableEq

/-- Owner criterion: the first .filter closure (lines 130-140). A record
with no owner, or with no owner allowlist configured, passes. -/
def ownerPred (args : Cli) (r : Repository) : Bool :=
  match r.owner with
  | some user =>
    match args.owner with
    | some owners => owners.contains user
    | none => true
  | none => true

/-- Visibility criterion: the second .filter closure (lines 141-147). A
record with unknown visibility passes. -/
def visPred (args : Cli) (r : Repository) : Bool :=
  match r.visibility with
  | some vis => args.visibility.contains vis
  | none => true

/-- Fork criterion: the third .filter closure (line 148), literally
r.fork == Some(args.fork); an unknown fork flag never equals Some. -/
def forkPred (args : Cli) (r : Repository) : Bool :=
  r.fork == some args.fork

/-- Star criterion: the fourth .filter closure (line 149),
r.stargazers_count <= Some(args.star) under the Rust Option order, in
which None is below every Some value. -/
def starPred (args : Cli) (r : Repository) : Bool :=
  match r.stargazers_count with
  | some s => decide (s ≤ args.star)
  | none => true

/-- The whole filter stage (lines 128-150): the four closures chained in
source order. -/
def filterRepos (args : Cli) (repos : List Repository) : List Repository :=
  (((repos.filter (ownerPred args)).filter (visPred args)).filter
      (forkPred args)).filter (starPred args)

/-- One insertion with HashMap::from_iter semantics (lines 157-161): a
later value for an existing key overwrites it in place, a new key is
appended. -/
def insertKV (m : List (String × Repository)) (k : String) (v : Repository) :
    List (String × Repository) :=
  if (m.map Prod.fst).contains k then
    m.map (fun p => if p.1 = k then (k, v) else p)
  else m ++ [(k, v)]

/-- Folds the fetched records into the qualified-name-to-record mapping;
none models the full_name.clone().unwrap() panic (line 159) on a record
without a qualified name. -/
def buildMap : List Repository → List (String × Repository) →
    Option (List (String × Repository))
  | [], m => some m
  | r :: rs, m =>
    match r.full_name with
    | none => none
    | some k => buildMap rs (insertKV m k r)

/-- The CandidateSet mapping handed to the Selection Gate. -/
def candidateSet (repos : List Repository) :
    Option (List (String × Repository)) :=
  buildMap repos []

/-- Terminal shape of the deletion executor stage (lines 198-222).
hang: a send on the full channel blocked forever, with the number of
tasks spawned up to that point; aborted: the missing-owner return from
main (line 205), with the number of tasks spawned before it; done: every
handle was buffered and joined, with the per-task outcomes in order. -/
inductive ExecOutcome where
  | hang (spawned : Nat)
  | aborted (spawned : Nat)
  | done (outcomes : List Bool)
deriving DecidableEq

/-- Capacity of the deletion hand-off channel (line 202). -/
def deleteChannelCapacity : Nat := 64

/-- Outcome of one spawned deletion task (lines 210-216): true when the
delete call succeeds; fails says which (owner, name) delete calls fail. -/
def taskOk (fails : String → String → Bool) (r : Repository) : Bool :=
  match r.owner with
  | some o => !(fails o r.name)
  | none => true

/-- The dispatch loop (lines 203-218): for each record resolve the owner
(a missing owner returns from main, abandoning the batch), spawn the
deletion task, then send its handle into the bounded channel. The send
blocks forever once 64 handles are buffered, because the drain loop
(lines 220-222) only starts after the dispatch loop has finished; acc
holds the outcomes of the tasks whose handles were buffered so far. -/
def execGo (fails : String → String → Bool) :
    List Repository → List Bool → ExecOutcome
  | [], acc => ExecOutcome.done acc.reverse
  | r :: rs, acc =>
    match r.owner with
    | none => ExecOutcome.aborted acc.length
    | some o =>
      if acc.length < deleteChannelCapacity then
        execGo fails rs ((!(fails o r.name)) :: acc)
      else ExecOutcome.hang (acc.length + 1)

/-- The Deletion Executor on a confirmed record list. -/
def runExecutor (fails : String → String → Bool)
    (confirmed : List Repository) : ExecOutcome :=
  execGo fails confirmed []

/-- Capacity of the pagination hand-off channel (line 108). -/
def pageChannelCapacity : Nat := 32

/-- Dispatch-then-drain loop for pages 2..totalPages (lines 107-119).
Each page index is cast to u8 in the source (i as u8, line 110), hence
i % 256. As in the executor, the drain loop only starts after every
send, so the 33rd send blocks forever (none). -/
def collectGo (fetch : Nat → List Repository) :
    List Nat → List (List Repository) → Option (List (List Repository))
  | [], acc => some acc.reverse
  | i :: rest, acc =>
    if acc.length < pageChannelCapacity then
      collectGo fetch rest (fetch (i % 256) :: acc)
    else none

/-- The Pagination Collector (lines 102-120): page 1 synchronously, then
one task per page 2..totalPages merged behind it; none models the
blocked send, on which the run never produces the merged collection. -/
def collectAll (fetch : Nat → List Repository) (totalPages : Option Nat) :
    Option (List Repository) :=
  match totalPages with
  | some n =>
    if 2 ≤ n then
      (collectGo fetch (List.range' 2 (n - 1)) []).map
        (fun pages => fetch 1 ++ pages.flatten)
    else some (fetch 1)
  | none => some (fetch 1)

/-- What the multi-select prompt returned (interact_opt, lines 164-173):
an I/O error, Ok(None) for a user cancellation, or Ok(Some(idxs)) with
the checked indices. -/
inductive GateResult where
  | err
  | cancelled
  | selected (idxs : List Nat)
deriving DecidableEq

/-- The fixed double-confirmation phrase (line 180). -/
def confirmStr : String := "I want to remove all repos above"

/-- Observable result of one run of main from the filter stage on.
exitCode none means the process never terminates; dispatched counts the
deletion tasks spawned; outcomes are the joined per-deletion results
(true = deleted), empty when the run ends before the drain loop. -/
structure RunReport where
  exitCode : Option Nat
  gateInvoked : Bool
  dispatched : Nat
  outcomes : List Bool
deriving DecidableEq

/-- Folds an executor outcome into the run report: a completed drain
ends the process normally (exit 0), a blocked send never terminates, and
the missing-owner return ends main normally (exit 0) with the already
buffered tasks abandoned. -/
def reportOf (gateInvoked : Bool) : ExecOutcome → RunReport
  | ExecOutcome.done outs => ⟨some 0, gateInvoked, outs.length, outs⟩
  | ExecOutcome.hang n => ⟨none, gateInvoked, n, []⟩
  | ExecOutcome.aborted n => ⟨some 0, gateInvoked, n, []⟩

/-- Association-list lookup mirroring map[keys[idx]] (line 192). -/
def lookupKV (m : List (String × Repository)) (k : String) :
    Option Repository :=
  (m.find? (fun p => p.1 == k)).map Prod.snd

/-- main from the filter stage on (lines 128-225): filter, the empty
check (exit 0, line 152-155), the candidate map build (a missing
full_name panics, modelled as exit 101), the multi-select gate (err or
cancel exits 1, lines 175-178), the double confirmation (mismatch exits
1, lines 180-188), then the deletion executor on the selected records
(lines 191-222). -/
def runMain (args : Cli) (fetched : List Repository) (gate : GateResult)
    (confirm : Option String) (fails : String → String → Bool) :
    RunReport :=
  let repos := filterRepos args fetched
  if repos.isEmpty then ⟨some 0, false, 0, []⟩
  else
    match candidateSet repos with
    | none => ⟨some 101, false, 0, []⟩
    | some m =>
      let keys := m.map Prod.fst
      match gate with
      | GateResult.err => ⟨some 1, true, 0, []⟩
      | GateResult.cancelled => ⟨some 1, true, 0, []⟩
      | GateResult.selected idxs =>
        if confirm = some confirmStr then
          if idxs.all (fun i => decide (i < keys.length)) then
            reportOf true (runExecutor fails
              (idxs.filterMap (fun i => (keys.get? i).bind (lookupKV m))))
          else ⟨some 101, true, 0, []⟩
        else ⟨some 1, true, 0, []⟩

/-- Default arguments: fork-only true, visibility public, no owner
allowlist, star bound 0 (the clap defaults, lines 13-31). -/
def args0 : Cli := ⟨"tok", true, ["public"], none, 0⟩

/-- Arguments with the fork flag set to false. -/
def args1 : Cli := ⟨"tok", false, ["public"], none, 0⟩

/-- A public fork with zero stars that passes every default criterion. -/
def rPass : Repository :=
  ⟨some "me", some "public", some true, some 0, some "me/a", "a"⟩

/-- A second record passing every default criterion. -/
def rPass2 : Repository :=
  ⟨some "me", some "public", some true, some 0, some "me/c", "c"⟩

/-- A record with no resolvable owner. -/
def rNoOwner : Repository :=
  ⟨none, some "public", some true, some 0, some "x/b", "b"⟩

/-- A record satisfying every default criterion except that its fork
flag is unknown. -/
def rUnknownFork : Repository :=
  ⟨some "me", some "public", none, some 0, some "me/u", "u"⟩

/-- A known fork satisfying the other default criteria. -/
def rIsFork : Repository :=
  ⟨some "me", some "public", some true, some 0, some "me/f", "f"⟩

/-- A known non-fork satisfying the other default criteria. -/
def rNonFork : Repository :=
  ⟨some "me", some "public", some false, some 0, some "me/nf", "nf"⟩

/-- A record the default criteria reject (not a fork). -/
def rNoMatch : Repository :=
  ⟨some "me", some "public", some false, some 0, some "me/n", "n"⟩

/-- First of two records sharing the qualified name me/dup. -/
def rDupA : Repository :=
  ⟨some "me", some "public", some true, some 0, some "me/dup", "dup"⟩

/-- Second of two records sharing the qualified name me/dup. -/
def rDupB : Repository :=
  ⟨some "me", some "private", some false, some 3, some "me/dup", "dup"⟩

/-- A delete capability that always succeeds. -/
def noFail : String → String → Bool := fun _ _ => false

/-- A delete capability failing exactly on the repository named b2. -/
def failOnB : String → String → Bool := fun _ n => n == "b2"

/-- Three confirmed records of which exactly the middle one fails. -/
def recsIso : List Repository :=
  [⟨some "me", some "public", some true, some 0, some "me/a2", "a2"⟩,
   ⟨some "me", some "public", some true, some 0, some "me/b2", "b2"⟩,
   ⟨some "me", some "public", some true, some 0, some "me/c2", "c2"⟩]

/-- Membership in the filter stage output: the four source predicates,
each required. -/
theorem mem_filterRepos (args : Cli) (repos : List Repository)
    (r : Repository) :
    r ∈ filterRepos args repos ↔
      r ∈ repos ∧ ownerPred args r = true ∧ visPred args r = true ∧
        forkPred args r = true ∧ starPred args r = true := by
  simp only [filterRepos, List.mem_filter]
  tauto

/-- The fork criterion demands an exactly known fork flag. -/
theorem forkPred_eq_true_iff (args : Cli) (r : Repository) :
    forkPred args r = true ↔ r.fork = some args.fork := by
  simp [forkPred]

/-- Claim C1 counterexample: a record that satisfies the owner,
visibility and star criteria but whose fork flag is unknown is excluded
by the filter under the default criteria, so an unknown attribute value
does cause exclusion, refuting the universal fail-open property. -/
theorem unknown_fork_excluded_cex :
    ownerPred args0 rUnknownFork = true ∧
    visPred args0 rUnknownFork = true ∧
    starPred args0 rUnknownFork = true ∧
    rUnknownFork.fork = none ∧
    filterRepos args0 [rUnknownFork] = [] := by
  decide

/-- Claim C1 (amended): for every criteria bundle and record list, a
record is retained iff it is in the input and satisfies the owner,
visibility, fork and star criteria, where the owner, visibility and star
criteria are fail-open on an unknown attribute, but the fork criterion
is fail-closed: a record whose fork flag is unknown is always excluded. -/
theorem filter_characterization (args : Cli) (repos : List Repository)
    (r : Repository) :
    (r ∈ filterRepos args repos ↔
      r ∈ repos ∧ ownerPred args r = true ∧ visPred args r = true ∧
        r.fork = some args.fork ∧ starPred args r = true) ∧
    (r.owner = none → ownerPred args r = true) ∧
    (r.visibility = none → visPred args r = true) ∧
    (r.stargazers_count = none → starPred args r = true) ∧
    (r.fork = none → r ∉ filterRepos args repos) := by
  refine ⟨?_, ?_, ?_, ?_, ?_⟩
  · rw [mem_filterRepos, forkPred_eq_true_iff]
  · intro h; simp [ownerPred, h]
  · intro h; simp [visPred, h]
  · intro h; simp [starPred, h]
  · intro h hmem
    have hf := ((mem_filterRepos args repos r).mp hmem).2.2.2.1
    rw [forkPred_eq_true_iff, h] at hf
    exact Option.noConfusion hf

/-- Witness for the amended C1 at a concrete input: the record with an
unknown fork flag is excluded. -/
theorem filter_characterization_witness :
    rUnknownFork.fork = none ∧
    rUnknownFork ∉ filterRepos args0 [rUnknownFork] :=
  ⟨rfl, (filter_characterization args0 [rUnknownFork] rUnknownFork).2.2.2.2
    rfl⟩

/-- Claim C5 counterexample: with the fork flag set to false, a known
fork that satisfies every other default criterion is excluded by the
filter, so being a fork is forbidden, not merely unrequired. -/
theorem fork_false_excludes_fork_cex :
    args1.fork = false ∧ rIsFork.fork = some true ∧
    filterRepos args1 [rIsFork] = [] := by
  decide

/-- Claim C5 (amended): when the fork flag of the criteria is false, the
fork criterion holds exactly for records whose fork flag is known to be
false; known forks and unknown-fork records are excluded, so fork status
does impose a constraint. -/
theorem fork_criterion_exact (args : Cli) (r : Repository)
    (h : args.fork = false) :
    forkPred args r = true ↔ r.fork = some false := by
  rw [forkPred_eq_true_iff, h]

/-- Witness for the amended C5 at a concrete input: under fork = false
the known non-fork satisfies the fork criterion. -/
theorem fork_criterion_exact_witness :
    args1.fork = false ∧ forkPred args1 rNonFork = true :=
  ⟨rfl, (fork_criterion_exact args1 rNonFork rfl).mpr rfl⟩

/-- Keys of the map after one HashMap-style insertion: unchanged when
the key already exists, else the new key is appended. -/
theorem insertKV_keys (m : List (String × Repository)) (k : String)
    (v : Repository) :
    (insertKV m k v).map Prod.fst =
      if (m.map Prod.fst).contains k then m.map Prod.fst
      else m.map Prod.fst ++ [k] := by
  unfold insertKV
  split
  · rw [List.map_map]
    refine List.map_congr_left ?_
    intro p _
    by_cases hp : p.1 = k
    · simp [hp]
    · simp [hp]
  · simp

/-- Building the map preserves key uniqueness and collects exactly the
qualified names of the processed records into the key list. -/
theorem buildMap_keys (rs : List Repository) :
    ∀ (m m2 : List (String × Repository)), buildMap rs m = some m2 →
      ((m.map Prod.fst).Nodup → (m2.map Prod.fst).Nodup) ∧
      (∀ k, k ∈ m2.map Prod.fst ↔
        k ∈ m.map Prod.fst ∨ ∃ r ∈ rs, r.full_name = some k) := by
  induction rs with
  | nil =>
    intro m m2 h
    cases h
    simp
  | cons r rs ih =>
    intro m m2 h
    cases hfn : r.full_name with
    | none => rw [buildMap, hfn] at h; exact Option.noConfusion h
    | some k0 =>
      rw [buildMap, hfn] at h
      have hkeys := insertKV_keys m k0 r
      have hmem : ∀ k, k ∈ (insertKV m k0 r).map Prod.fst ↔
          k ∈ m.map Prod.fst ∨ k = k0 := by
        intro k
        rw [hkeys]
        split
        · rename_i hc
          have hk0 : k0 ∈ m.map Prod.fst := by
            simpa using hc
          constructor
          · exact Or.inl
          · rintro (hk | rfl)
            · exact hk
            · exact hk0
        · simp
      have hnd : (m.map Prod.fst).Nodup → ((insertKV m k0 r).map Prod.fst).Nodup := by
        intro hm
        rw [hkeys]
        split
        · exact hm
        · rename_i hc
          have hk0 : k0 ∉ m.map Prod.fst := by
            simpa using hc
          simp [List.nodup_append, hm, hk0]
      obtain ⟨ih1, ih2⟩ := ih (insertKV m k0 r) m2 h
      refine ⟨fun hm => ih1 (hnd hm), fun k => ?_⟩
      rw [ih2 k, hmem k]
      constructor
      · rintro ((hk | rfl) | ⟨r2, hr2, hfn2⟩)
        · exact Or.inl hk
        · exact Or.inr ⟨r, List.mem_cons_self r rs, hfn⟩
        · exact Or.inr ⟨r2, List.mem_cons_of_mem r hr2, hfn2⟩
      · rintro (hk | ⟨r2, hr2, hfn2⟩)
        · exact Or.inl (Or.inl hk)
        · rcases List.mem_cons.mp hr2 with rfl | hr2
          · rw [hfn] at hfn2
            exact Or.inl (Or.inr (Option.some_inj.mp hfn2).symm)
          · exact Or.inr ⟨r2, hr2, hfn2⟩

/-- Claim C8: for every collection of fetched records, whenever the
CandidateSet mapping is produced, its keys are unique (exactly one entry
per qualified name) and are exactly the qualified names occurring among
the records, so duplicate qualified names across pages collapse into a
single entry. -/
theorem candidate_set_unique_keys (repos : List Repository)
    (m : List (String × Repository)) (h : candidateSet repos = some m) :
    (m.map Prod.fst).Nodup ∧
    (∀ k, k ∈ m.map Prod.fst ↔ ∃ r ∈ repos, r.full_name = some k) := by
  have h2 := buildMap_keys repos [] m h
  refine ⟨h2.1 (by simp), fun k => ?_⟩
  rw [h2.2 k]
  simp

/-- Witness for C8 at a concrete input: two records sharing the
qualified name me/dup produce a single-entry map (the later record wins)
with unique keys. -/
theorem candidate_set_unique_keys_witness :
    ([("me/dup", rDupB)].map Prod.fst).Nodup ∧
    "me/dup" ∈ [("me/dup", rDupB)].map Prod.fst :=
  have h := candidate_set_unique_keys [rDupA, rDupB] [("me/dup", rDupB)]
    (by decide)
  ⟨h.1, (h.2 "me/dup").mpr ⟨rDupB, by decide, rfl⟩⟩

/-- When the confirmed list fits in the channel together with what is
already buffered and every owner resolves, the dispatch loop buffers one
task per record and the drain joins them all, yielding one outcome per
record in order. -/
theorem execGo_done (fails : String → String → Bool)
    (rs : List Repository) :
    ∀ acc : List Bool, acc.length + rs.length ≤ deleteChannelCapacity →
      (∀ r ∈ rs, r.owner.isSome) →
      execGo fails rs acc =
        ExecOutcome.done (acc.reverse ++ rs.map (taskOk fails)) := by
  induction rs with
  | nil =>
    intro acc _ _
    simp [execGo]
  | cons r rs ih =>
    intro acc hlen hown
    obtain ⟨o, ho⟩ := Option.isSome_iff_exists.mp (hown r (by simp))
    have hlt : acc.length < deleteChannelCapacity := by
      simp only [List.length_cons] at hlen
      omega
    rw [execGo, ho]
    simp only [hlt, if_true]
    rw [ih ((!(fails o r.name)) :: acc)
      (by simp only [List.length_cons] at hlen ⊢; omega)
      (fun x hx => hown x (List.mem_cons_of_mem r hx))]
    simp [taskOk, ho]

/-- Counting outcomes in a mapped boolean list against filters on the
underlying list. -/
theorem count_bool_map {α : Type} (f : α → Bool) (l : List α) :
    (l.map f).count false = (l.filter fun x => !(f x)).length ∧
    (l.map f).count true = (l.filter fun x => f x).length := by
  induction l with
  | nil => exact ⟨rfl, rfl⟩
  | cons x xs ih =>
    cases hx : f x <;>
      simp [List.count_cons, List.filter_cons, hx, ih.1, ih.2]

/-- A boolean filter and its negation split the length of a list. -/
theorem filter_length_split {α : Type} (f : α → Bool) (l : List α) :
    (l.filter fun x => f x).length + (l.filter fun x => !(f x)).length
      = l.length := by
  induction l with
  | nil => rfl
  | cons x xs ih =>
    cases hx : f x <;> simp [List.filter_cons, hx] <;> omega

/-- Claim C2 counterexample: with 65 confirmed records, all with
resolvable owners, and a delete capability that never fails (K = 0), the
executor does not complete: the 65th send blocks on the full 64-slot
channel before the drain loop starts, so the run never reports the 65
successes the claim promises. -/
theorem executor_never_completes_at_65_cex :
    runExecutor noFail (List.replicate 65 rPass) = ExecOutcome.hang 65 ∧
    (List.replicate 65 rPass).length = 65 := by
  constructor
  · rfl
  · rfl

/-- Claim C2 (amended): for every confirmed list of at most 64 records
(the deletion channel capacity), each with a resolvable owner, where
exactly K delete calls fail, the run completes having attempted a
deletion for every record, with one outcome per record in order (so one
progress increment per completed task), exactly K failed outcomes and
N - K successes, and a failed deletion never aborts the run nor affects
any sibling: each outcome is a function of its own record alone. For 65
or more records the dispatch loop blocks forever on the full channel. -/
theorem executor_isolation (fails : String → String → Bool)
    (records : List Repository)
    (hlen : records.length ≤ deleteChannelCapacity)
    (hown : ∀ r ∈ records, r.owner.isSome) :
    runExecutor fails records =
      ExecOutcome.done (records.map (taskOk fails)) ∧
    (records.map (taskOk fails)).length = records.length ∧
    (records.map (taskOk fails)).count false =
      (records.filter fun r => !(taskOk fails r)).length ∧
    (records.map (taskOk fails)).count true =
      records.length - (records.filter fun r => !(taskOk fails r)).length := by
  refine ⟨?_, by simp, ?_, ?_⟩
  · exact execGo_done fails records [] (by simpa) hown
  · exact (count_bool_map (taskOk fails) records).1
  · have h1 := (count_bool_map (taskOk fails) records).2
    have h2 := filter_length_split (taskOk fails) records
    omega

/-- Witness for the amended C2 at a concrete input: three records of
which exactly the middle delete call fails give outcomes true, false,
true, so one failure is reported and the others still succeed. -/
theorem executor_isolation_witness :
    recsIso.length ≤ deleteChannelCapacity ∧
    runExecutor failOnB recsIso = ExecOutcome.done [true, false, true] := by
  refine ⟨by decide, ?_⟩
  have h := executor_isolation failOnB recsIso (by decide)
    (by intro r hr; fin_cases hr <;> decide)
  have he : recsIso.map (taskOk failOnB) = [true, false, true] := by decide
  rw [he] at h
  exact h.1

/-- Claim C3: with 66 confirmed records the executor spawns only 65
tasks and then blocks forever: the 65th send fills no slot because the
drain loop (which would free the channel) only starts after the dispatch
loop, so fan-out is incomplete, the 66th record is never dispatched, and
the run never terminates, contradicting the claim for lists of every
size. -/
theorem executor_hangs_at_66 :
    runExecutor noFail (List.replicate 66 rPass) = ExecOutcome.hang 65 ∧
    66 ≤ (List.replicate 66 rPass).length := by
  constructor
  · rfl
  · rfl

/-- Claim C7: a confirmed list whose second record has no resolvable
owner makes the dispatch loop return from main after spawning only the
first task: the ownerless record is not reported as a per-record
failure, the third record is never dispatched, and the already spawned
task is abandoned, contradicting report-and-skip isolation. -/
theorem missing_owner_aborts_run :
    runExecutor noFail [rPass, rNoOwner, rPass2] = ExecOutcome.aborted 1 := by
  rfl

/-- When the remaining pages fit in the channel together with what is
already buffered, the page dispatch loop buffers every fetched page and
the drain returns them in order. -/
theorem collectGo_done (fetch : Nat → List Repository) (ps : List Nat) :
    ∀ acc : List (List Repository),
      acc.length + ps.length ≤ pageChannelCapacity →
      collectGo fetch ps acc =
        some (acc.reverse ++ ps.map fun i => fetch (i % 256)) := by
  induction ps with
  | nil =>
    intro acc _
    simp [collectGo]
  | cons i ps ih =>
    intro acc hlen
    have hlt : acc.length < pageChannelCapacity := by
      simp only [List.length_cons] at hlen
      omega
    rw [collectGo]
    simp only [hlt, if_true]
    rw [ih (fetch (i % 256) :: acc)
      (by simp only [List.length_cons] at hlen ⊢; omega)]
    simp

/-- For a total page count between 2 and 33 the collector merges page 1
with every remaining page. -/
theorem collectAll_small (fetch : Nat → List Repository) (n : Nat)
    (h2 : 2 ≤ n) (h33 : n ≤ 33) :
    collectAll fetch (some n) =
      some (fetch 1 ++
        ((List.range' 2 (n - 1)).map fun i => fetch (i % 256)).flatten) := by
  rw [collectAll, if_pos h2,
    collectGo_done fetch _ [] (by simp [pageChannelCapacity]; omega)]
  simp

/-- Claim C6: when the first page reports 34 total pages the collector
never yields the merged collection: pages 2 through 34 need 33 sends
into the capacity-32 channel, the drain loop only starts after the
dispatch loop, so the 33rd send blocks forever and the run hangs instead
of merging the items of pages 1..34. -/
theorem pagination_hangs_at_34 :
    collectAll (fun i => List.replicate (i + 1) rPass) (some 34) = none := by
  rfl

/-- Claim C9: whenever the filter stage produces an empty matching set,
main exits with status 0 without invoking the Selection Gate and with
zero deletions dispatched, for every gate behaviour, confirmation input
and delete capability. -/
theorem empty_filter_success_exit (args : Cli) (fetched : List Repository)
    (gate : GateResult) (confirm : Option String)
    (fails : String → String → Bool)
    (h : filterRepos args fetched = []) :
    runMain args fetched gate confirm fails = ⟨some 0, false, 0, []⟩ := by
  simp [runMain, h]

/-- Witness for C9 at a concrete input: one fetched non-fork is filtered
out under the default criteria and the run exits 0 before the gate. -/
theorem empty_filter_success_exit_witness :
    filterRepos args0 [rNoMatch] = [] ∧
    runMain args0 [rNoMatch] GateResult.cancelled none noFail =
      ⟨some 0, false, 0, []⟩ :=
  ⟨by decide, empty_filter_success_exit args0 [rNoMatch]
    GateResult.cancelled none noFail (by decide)⟩

/-- Claim C10: an I/O error of the multi-select prompt is handled by the
same branch as a user cancellation: the run report is identical, and
when the gate is actually reached (nonempty filter output, candidate map
built) it is exit status 1 with zero deletions dispatched. -/
theorem multiselect_error_like_cancel (args : Cli)
    (fetched : List Repository) (confirm : Option String)
    (fails : String → String → Bool) :
    runMain args fetched GateResult.err confirm fails =
      runMain args fetched GateResult.cancelled confirm fails ∧
    (filterRepos args fetched ≠ [] →
      ∀ m, candidateSet (filterRepos args fetched) = some m →
        runMain args fetched GateResult.err confirm fails =
          ⟨some 1, true, 0, []⟩) := by
  constructor
  · cases h : (filterRepos args fetched).isEmpty
    · cases hm : candidateSet (filterRepos args fetched) <;>
        simp [runMain, h, hm]
    · simp [runMain, h]
  · intro hne m hm
    have h : (filterRepos args fetched).isEmpty = false := by
      cases hf : filterRepos args fetched
      · exact absurd hf hne
      · rfl
    simp [runMain, h, hm]

/-- Witness for C10 at a concrete input: a prompt I/O error on a
one-candidate run exits 1 with zero deletions. -/
theorem multiselect_error_like_cancel_witness :
    runMain args0 [rPass] GateResult.err none noFail =
      ⟨some 1, true, 0, []⟩ :=
  (multiselect_error_like_cancel args0 [rPass] none noFail).2
    (by decide) [("me/a", rPass)] (by decide)

/-- Claim C4 counterexample: with one candidate, an empty confirmed
subset and the confirmation phrase typed exactly, the run does not abort
with a non-zero status: it proceeds through the executor with zero
tasks and terminates with exit status 0 (zero deletions are dispatched,
but the exit status contradicts the claim). -/
theorem empty_selection_exits_zero_cex :
    runMain args0 [rPass] (GateResult.selected []) (some confirmStr) noFail
      = ⟨some 0, true, 0, []⟩ := by
  decide

/-- Claim C4 (amended): once the gate is reached, a prompt error or
cancellation, or a confirmation text differing from the fixed phrase
(including by casing only), exits with status 1 and dispatches zero
deletions; an empty confirmed subset, however, is not treated as abort:
it dispatches zero deletions but completes with success status 0. -/
theorem gate_abort_behavior (args : Cli) (fetched : List Repository)
    (confirm : Option String) (fails : String → String → Bool)
    (m : List (String × Repository))
    (hne : filterRepos args fetched ≠ [])
    (hm : candidateSet (filterRepos args fetched) = some m) :
    (∀ g, g = GateResult.err ∨ g = GateResult.cancelled →
      runMain args fetched g confirm fails = ⟨some 1, true, 0, []⟩) ∧
    (∀ idxs, confirm ≠ some confirmStr →
      runMain args fetched (GateResult.selected idxs) confirm fails =
        ⟨some 1, true, 0, []⟩) ∧
    (confirm = some confirmStr →
      runMain args fetched (GateResult.selected []) confirm fails =
        ⟨some 0, true, 0, []⟩) := by
  have h : (filterRepos args fetched).isEmpty = false := by
    cases hf : filterRepos args fetched
    · exact absurd hf hne
    · rfl
  refine ⟨?_, ?_, ?_⟩
  · rintro g (rfl | rfl) <;> simp [runMain, h, hm]
  · intro idxs hc
    simp [runMain, h, hm, hc]
  · intro hc
    simp [runMain, h, hm, hc, runExecutor, execGo, reportOf]

/-- Witness for the amended C4 at a concrete input: a cancellation on a
one-candidate run exits 1 with zero deletions even though the phrase was
typed exactly. -/
theorem gate_abort_behavior_witness :
    runMain args0 [rPass] GateResult.cancelled (some confirmStr) noFail =
      ⟨some 1, true, 0, []⟩ :=
  ((gate_abort_behavior args0 [rPass] (some confirmStr) noFail
    [("me/a", rPass)] (by decide) (by decide)).1)
    GateResult.cancelled (Or.inr rfl)
